import Mathlib

/-!
Verification development for the `secondbrain` capture/OCR pipeline.

Shallow embedding of the modules under `src/second_brain`:
  * `capture/image_combiner.py`   — image layout under a size budget
  * `capture/screenshot_buffer.py`— time/size flush policy, bounded deque
  * `ocr/deepseek_ocr.py`         — per-item extraction, retries, batch split
  * `ocr/hybrid_ocr.py`           — deterministic ratio-based routing

Python machine arithmetic notes: PIL image sizes are Python ints (ℕ here);
float arithmetic on scale factors is modelled exactly over ℚ; `int(x)` on a
nonnegative float is modelled as the floor.  Timestamps (`time.time()`) are
passed explicitly as ℚ values.  Nondeterministic block ids (`uuid.uuid4()`)
are omitted from the block model; no property depends on them.
-/

namespace SecondBrain

/-- A PIL raster image, reduced to its geometry (the pixel payload plays no
role in any of the verified properties). -/
structure PImage where
  width : Nat
  height : Nat
  deriving DecidableEq, Repr

/-- Python `int(q)` for the nonnegative scale products appearing in
`image_combiner.py` (truncation towards zero = floor on nonnegatives). -/
def pyFloor (q : ℚ) : ℕ := (Int.floor q).toNat

/-- `img.resize((int(img.width*scale), int(img.height*scale)))` from
`image_combiner.py` (the Lanczos resampling filter does not affect size). -/
def scaleBy (img : PImage) (scale : ℚ) : PImage :=
  ⟨pyFloor ((img.width : ℚ) * scale), pyFloor ((img.height : ℚ) * scale)⟩

/-- Python `max(list)`; the combiner only applies it to nonempty lists, where
folding from 0 agrees. -/
def listMax (l : List ℕ) : ℕ := l.foldl max 0

/-- First loop of `_vertical_stack`: every image wider than `max_width` is
scaled down proportionally by `max_width / img.width`. -/
def vstackPre (images : List PImage) (max_width : ℕ) : List PImage :=
  images.map fun img =>
    if max_width < img.width then scaleBy img ((max_width : ℚ) / (img.width : ℚ))
    else img

/-- `target_width = min(max(widths), max_width)`, recomputed after the
width pre-scaling. -/
def vstackTargetWidth (images : List PImage) (max_width : ℕ) : ℕ :=
  min (listMax ((vstackPre images max_width).map PImage.width)) max_width

/-- `total_height = sum(heights) + spacing * (len(images) - 1)` before the
height rescale. -/
def vstackTotalHeight (images : List PImage) (max_width spacing : ℕ) : ℕ :=
  ((vstackPre images max_width).map PImage.height).sum + spacing * (images.length - 1)

/-- `_vertical_stack` from `image_combiner.py`: pre-scale overwide images,
take `target_width = min(max(widths), max_width)`, and if the summed heights
plus spacing exceed `max_height`, rescale every image (but not the spacing)
by `max_height / total_height`; the canvas is `target_width × total_height`
recomputed after that rescale. -/
def _vertical_stack (images : List PImage) (max_width max_height spacing : ℕ) : PImage :=
  if max_height < vstackTotalHeight images max_width spacing then
    ⟨vstackTargetWidth images max_width,
     (((vstackPre images max_width).map fun img =>
        scaleBy img ((max_height : ℚ) / (vstackTotalHeight images max_width spacing : ℚ))).map
          PImage.height).sum + spacing * (images.length - 1)⟩
  else
    ⟨vstackTargetWidth images max_width, vstackTotalHeight images max_width spacing⟩

/-- First loop of `_horizontal_stack`: every image taller than `max_height`
is scaled down proportionally. -/
def hstackPre (images : List PImage) (max_height : ℕ) : List PImage :=
  images.map fun img =>
    if max_height < img.height then scaleBy img ((max_height : ℚ) / (img.height : ℚ))
    else img

/-- `target_height = min(max(heights), max_height)` after the height
pre-scaling. -/
def hstackTargetHeight (images : List PImage) (max_height : ℕ) : ℕ :=
  min (listMax ((hstackPre images max_height).map PImage.height)) max_height

/-- `total_width = sum(widths) + spacing * (len(images) - 1)` before the
width rescale. -/
def hstackTotalWidth (images : List PImage) (max_height spacing : ℕ) : ℕ :=
  ((hstackPre images max_height).map PImage.width).sum + spacing * (images.length - 1)

/-- `_horizontal_stack` from `image_combiner.py`, symmetric to
`_vertical_stack` with the roles of width and height swapped. -/
def _horizontal_stack (images : List PImage) (max_width max_height spacing : ℕ) : PImage :=
  if max_width < hstackTotalWidth images max_height spacing then
    ⟨(((hstackPre images max_height).map fun img =>
        scaleBy img ((max_width : ℚ) / (hstackTotalWidth images max_height spacing : ℚ))).map
          PImage.width).sum + spacing * (images.length - 1),
     hstackTargetHeight images max_height⟩
  else
    ⟨hstackTotalWidth images max_height spacing, hstackTargetHeight images max_height⟩

/-- `math.ceil(math.sqrt(n))` for the grid column count. -/
def ceilSqrt (n : ℕ) : ℕ :=
  if Nat.sqrt n * Nat.sqrt n = n then Nat.sqrt n else Nat.sqrt n + 1

/-- `_grid_layout` from `image_combiner.py`.  Cell sizes use Python floor
division over possibly negative ints, hence ℤ with `Int.fdiv`; the canvas is
`cols·cell_width + spacing·(cols−1)` by `rows·cell_height + spacing·(rows−1)`
independently of the per-cell image scaling. -/
def _grid_layout (images : List PImage) (max_width max_height spacing : ℕ) : PImage :=
  let n := images.length
  let cols := ceilSqrt n
  let rows := (n + cols - 1) / cols
  let cell_width : ℤ := Int.fdiv ((max_width : ℤ) - (spacing : ℤ) * ((cols : ℤ) - 1)) (cols : ℤ)
  let cell_height : ℤ := Int.fdiv ((max_height : ℤ) - (spacing : ℤ) * ((rows : ℤ) - 1)) (rows : ℤ)
  let _scaled := images.map fun img =>
    let width_scale : ℚ := (cell_width : ℚ) / (img.width : ℚ)
    let height_scale : ℚ := (cell_height : ℚ) / (img.height : ℚ)
    scaleBy img (min width_scale height_scale)
  let total_width : ℤ := (cols : ℤ) * cell_width + (spacing : ℤ) * ((cols : ℤ) - 1)
  let total_height : ℤ := (rows : ℤ) * cell_height + (spacing : ℤ) * ((rows : ℤ) - 1)
  ⟨total_width.toNat, total_height.toNat⟩

/-- The `Literal['vertical_stack', 'horizontal_stack', 'grid']` strategy type. -/
inductive CombineStrategy
  | vertical_stack
  | horizontal_stack
  | grid
  deriving DecidableEq, Repr

/-- `combine_screenshots` from `image_combiner.py`: raises on an empty list
(`none` here), returns a single image unchanged before any strategy dispatch,
otherwise dispatches on the strategy. -/
def combine_screenshots (images : List PImage) (strategy : CombineStrategy)
    (max_width max_height spacing : ℕ) : Option PImage :=
  match images with
  | [] => none
  | [img] => some img
  | _ =>
    match strategy with
    | .vertical_stack => some (_vertical_stack images max_width max_height spacing)
    | .horizontal_stack => some (_horizontal_stack images max_width max_height spacing)
    | .grid => some (_grid_layout images max_width max_height spacing)

/-- `BufferedFrame` from `screenshot_buffer.py` (the `datetime.now()`
timestamp is the ℚ clock value passed to `add`). -/
structure BufferedFrame where
  path : String
  frame_id : String
  timestamp : ℚ
  app_bundle_id : Option String
  window_title : Option String
  deriving DecidableEq, Repr

/-- `ScreenshotBuffer` state: the deque contents (oldest first), the three
policy settings, and the last-flush timestamp. -/
structure ScreenshotBuffer where
  buffer : List BufferedFrame
  duration : ℚ
  max_size : ℕ
  min_flush_size : ℕ
  last_flush : ℚ
  deriving DecidableEq, Repr

/-- `ScreenshotBuffer.__init__`: empty deque with `maxlen = max_size`,
`last_flush = time.time()` (the `now` argument). -/
def mkScreenshotBuffer (duration_seconds : ℚ) (max_size min_flush_size : ℕ)
    (now : ℚ) : ScreenshotBuffer :=
  ⟨[], duration_seconds, max_size, min_flush_size, now⟩

/-- `deque(maxlen=m).append`: append on the right, evicting from the left
when the bound is exceeded. -/
def dequeAppend (maxlen : ℕ) (l : List BufferedFrame) (f : BufferedFrame) :
    List BufferedFrame :=
  let l2 := l ++ [f]
  l2.drop (l2.length - maxlen)

/-- `ScreenshotBuffer.should_flush`, with `time.time()` passed as `now`:
empty buffer → `False`; size at capacity → `True`; otherwise the time/size
combination. -/
def ScreenshotBuffer.should_flush (s : ScreenshotBuffer) (now : ℚ) : Bool :=
  if s.buffer.isEmpty then false
  else if s.max_size ≤ s.buffer.length then true
  else if s.duration ≤ now - s.last_flush ∧ s.min_flush_size ≤ s.buffer.length then true
  else false

/-- The arguments of one `ScreenshotBuffer.add` call (frame path, frame id,
the two metadata fields read from the dict, and the clock value at the
call). -/
structure AddInput where
  path : String
  frame_id : String
  app_bundle_id : Option String
  window_title : Option String
  now : ℚ
  deriving DecidableEq, Repr

/-- The `BufferedFrame` constructed at the top of `add`. -/
def AddInput.toFrame (a : AddInput) : BufferedFrame :=
  ⟨a.path, a.frame_id, a.now, a.app_bundle_id, a.window_title⟩

/-- `ScreenshotBuffer.add`: append to the deque, then report
`should_flush()`. -/
def ScreenshotBuffer.add (s : ScreenshotBuffer) (a : AddInput) :
    ScreenshotBuffer × Bool :=
  let s2 := { s with buffer := dequeAppend s.max_size s.buffer a.toFrame }
  (s2, s2.should_flush a.now)

/-- `ScreenshotBuffer.get_batch`: snapshot the `(path, frame_id)` pairs,
clear the deque, reset `last_flush` to now. -/
def ScreenshotBuffer.get_batch (s : ScreenshotBuffer) (now : ℚ) :
    List (String × String) × ScreenshotBuffer :=
  (s.buffer.map fun f => (f.path, f.frame_id),
   { s with buffer := [], last_flush := now })

/-- `ScreenshotBuffer.force_flush`: empty buffer → `[]` with the state (and
in particular `last_flush`) untouched; otherwise `get_batch`. -/
def ScreenshotBuffer.force_flush (s : ScreenshotBuffer) (now : ℚ) :
    List (String × String) × ScreenshotBuffer :=
  if s.buffer.isEmpty then ([], s) else s.get_batch now

/-- `ScreenshotBuffer.clear`: drop the contents, reset the timer. -/
def ScreenshotBuffer.clear (s : ScreenshotBuffer) (now : ℚ) : ScreenshotBuffer :=
  { s with buffer := [], last_flush := now }

/-- One operation of the buffer's public mutating interface, with the clock
value at which it runs. -/
inductive BufferOp
  | add (a : AddInput)
  | flush (now : ℚ)
  | clear (now : ℚ)
  deriving DecidableEq, Repr

/-- State transition of a single `BufferOp` (flush = `force_flush`, whose
returned batch is irrelevant to the state). -/
def applyOp (s : ScreenshotBuffer) : BufferOp → ScreenshotBuffer
  | .add a => (s.add a).1
  | .flush now => (s.force_flush now).2
  | .clear now => s.clear now

/-- Run a sequence of buffer operations. -/
def applyOps (s : ScreenshotBuffer) (ops : List BufferOp) : ScreenshotBuffer :=
  ops.foldl applyOp s

/-- Fold a list of `add` calls, discarding the returned booleans. -/
def addMany (s : ScreenshotBuffer) (adds : List AddInput) : ScreenshotBuffer :=
  adds.foldl (fun st a => (st.add a).1) s

/-- A text-block dict as built by `deepseek_ocr.py` and tagged by
`hybrid_ocr.py`.  Optional dict keys are `Option` fields; the nondeterministic
`block_id` (`uuid.uuid4()`) is omitted — no verified property reads it. -/
structure TextBlock where
  frame_id : String
  text : String
  normalized_text : String
  confidence : ℚ
  block_type : String
  semantic_context : Option String
  ocr_engine : Option String
  deriving DecidableEq, Repr

/-- ASCII whitespace as recognised by Python's `str.strip()` with no
arguments (space, tab, newline, carriage return, vertical tab, form feed). -/
def pyIsSpace (c : Char) : Bool :=
  c = ' ' || c = '\t' || c = '\n' || c = '\r' || c = Char.ofNat 11 || c = Char.ofNat 12

/-- Python `str.strip()`: drop leading and trailing whitespace. -/
def pyStrip (s : String) : String :=
  String.mk (((s.toList.dropWhile pyIsSpace).reverse.dropWhile pyIsSpace).reverse)

/-- Python `text.split('\n')` over the character list; always returns one
more piece than there are newlines, so `"" → [""]`. -/
def splitLinesChar : List Char → List (List Char)
  | [] => [[]]
  | c :: rest =>
    match splitLinesChar rest with
    | [] => [[]]
    | l :: ls => if c = '\n' then [] :: l :: ls else (c :: l) :: ls

/-- Python `combined_text.split('\n')`. -/
def pySplitLines (s : String) : List String := (splitLinesChar s.toList).map String.mk

/-- Python `'\n'.join(lines)`. -/
def pyJoinLines (lines : List String) : String :=
  String.mk (List.intercalate ['\n'] (lines.map String.toList))

/-- `re.sub(r' +', ' ', ·)` over the character list: a space is dropped when
the previously kept character is already a space. -/
def squeezeSpaces (cs : List Char) : List Char :=
  (cs.foldl (fun acc c =>
    if c = ' ' && acc.head? = some ' ' then acc else c :: acc) []).reverse

/-- `re.sub(r'\n\n+', '\n\n', ·)` over the character list: a newline is
dropped when the two previously kept characters are already newlines, i.e.
runs of two or more newlines are truncated to exactly two. -/
def limitNewlines (cs : List Char) : List Char :=
  (cs.foldl (fun acc c =>
    if c = '\n' && acc.head? = some '\n' && (acc.drop 1).head? = some '\n' then acc
    else c :: acc) []).reverse

/-- `DeepSeekOCR._normalize_text`: collapse space runs, collapse newline
runs to two, strip. -/
def _normalize_text (text : String) : String :=
  pyStrip (String.mk (limitNewlines (squeezeSpaces text.toList)))

/-- The per-frame line window of `_split_batch_results`: with
`lines_per_frame = max(1, total_lines // n)`, frame `idx` takes lines
`[idx*lines_per_frame, idx*lines_per_frame + lines_per_frame)` and the last
frame takes everything from its start line on. -/
def splitFrameLines (combined_text : String) (n idx : ℕ) : List String :=
  let lines := pySplitLines combined_text
  let lines_per_frame := max 1 (lines.length / n)
  let start_line := idx * lines_per_frame
  let end_line := if idx = n - 1 then lines.length else start_line + lines_per_frame
  (lines.drop start_line).take (end_line - start_line)

/-- `frame_text = '\n'.join(lines[start_line:end_line])` for frame `idx`. -/
def splitFrameText (combined_text : String) (n idx : ℕ) : String :=
  pyJoinLines (splitFrameLines combined_text n idx)

/-- `DeepSeekOCR._split_batch_results`: one entry per frame id, a singleton
block for a frame whose text is nonempty after stripping, `[]` otherwise. -/
def _split_batch_results (include_semantic : Bool) (combined_text : String)
    (frame_ids : List String) : List (List TextBlock) :=
  frame_ids.enum.map fun p =>
    let frame_text := splitFrameText combined_text frame_ids.length p.1
    if pyStrip frame_text = "" then []
    else
      [{ frame_id := p.2
         text := frame_text
         normalized_text := _normalize_text frame_text
         confidence := 9/10
         block_type := "text"
         semantic_context :=
           if include_semantic then
             some ("DeepSeek batch OCR (frame " ++ toString (p.1 + 1) ++ "/" ++
               toString frame_ids.length ++ ")")
           else none
         ocr_engine := none }]

/-- Splitter as claim C2 words it: contiguous chunks of size
`ceil(total_lines / n)`, final frame absorbing the remainder.  This follows
the claim's words, for comparison with the source's `splitFrameText`. -/
def ceilChunkFrameText (combined_text : String) (n idx : ℕ) : String :=
  let lines := pySplitLines combined_text
  let chunk := (lines.length + n - 1) / n
  let start_line := idx * chunk
  let end_line := if idx = n - 1 then lines.length else start_line + chunk
  pyJoinLines ((lines.drop start_line).take (end_line - start_line))

/-- Outcome of one `_process_via_mlx` attempt inside `extract_text`'s retry
loop: a transcript, a `requests.exceptions.Timeout`, or any other exception
(the class that includes the `_ensure_mlx_loaded` model-load failure, which
`_ensure_mlx_loaded` re-raises into its caller). -/
inductive MlxOutcome
  | ok (result : String)
  | timeout
  | failure
  deriving DecidableEq, Repr

/-- Observable behaviour of one `extract_text` call: the returned block
list, the number of `_process_via_mlx` attempts performed, and the
`asyncio.sleep` durations between attempts (`2**attempt` after a timeout,
`1` after any other exception). -/
structure ExtractTrace where
  result : List TextBlock
  attempts : ℕ
  waits : List ℚ
  deriving DecidableEq, Repr

/-- The `for attempt in range(max_retries)` retry loop of
`DeepSeekOCR.extract_text`, with `fuel = max_retries - attempt` remaining
iterations; `conv` stands for `_convert_to_text_blocks(·, frame_id)`.
`fuel = 0` is the fall-through `return []` after the loop; on the last
iteration (`attempt == max_retries - 1`, i.e. remaining `fuel = 1`) both
except-branches return `[]` without sleeping. -/
def extractLoop (conv : String → List TextBlock) (outcome : ℕ → MlxOutcome) :
    ℕ → ℕ → ExtractTrace
  | 0, _ => ⟨[], 0, []⟩
  | fuel + 1, attempt =>
    match outcome attempt with
    | .ok res => ⟨conv res, 1, []⟩
    | .timeout =>
      if fuel = 0 then ⟨[], 1, []⟩
      else
        let rest := extractLoop conv outcome fuel (attempt + 1)
        ⟨rest.result, rest.attempts + 1, ((2 : ℚ) ^ attempt) :: rest.waits⟩
    | .failure =>
      if fuel = 0 then ⟨[], 1, []⟩
      else
        let rest := extractLoop conv outcome fuel (attempt + 1)
        ⟨rest.result, rest.attempts + 1, (1 : ℚ) :: rest.waits⟩

/-- `DeepSeekOCR.extract_text`: `image_path.exists()` and `Image.open`
guards return `[]` with no attempt and no wait; otherwise the retry loop
runs with the per-attempt outcomes of `_process_via_mlx`. -/
def extract_text (max_retries : ℕ) (file_exists image_readable : Bool)
    (outcome : ℕ → MlxOutcome) (conv : String → List TextBlock) : ExtractTrace :=
  if file_exists = false then ⟨[], 0, []⟩
  else if image_readable = false then ⟨[], 0, []⟩
  else extractLoop conv outcome max_retries 0

/-- `DeepSeekOCR.process_batch`.  `ext` abstracts one `extract_text` call
per `(path, frame_id)` item (total: the retry loop above never raises);
`batch` abstracts the whole try-block (rate limit, `combine_screenshot_files`,
`_process_via_mlx`): `.ok t` is the combined transcript `result['result']`,
`.error` is any exception, after which each item is processed individually
with per-item exceptions absorbed. -/
def process_batch (ext : String × String → List TextBlock)
    (batch : Except Unit String) (include_semantic : Bool)
    (image_paths : List (String × String)) : List (List TextBlock) :=
  match image_paths with
  | [] => []
  | [item] => [ext item]
  | _ =>
    match batch with
    | .ok combined_text =>
      _split_batch_results include_semantic combined_text (image_paths.map Prod.snd)
    | .error _ => image_paths.map fun item => ext item

/-- `max(0.0, min(1.0, ratio))` from `HybridOCR.__init__`. -/
def clampFrac (q : ℚ) : ℚ := max 0 (min 1 q)

/-- `k = int(math.ceil(n * self.ratio))` with the constructor-clamped ratio. -/
def hybridSplitIndex (frac : ℚ) (n : ℕ) : ℕ :=
  (Int.ceil ((n : ℚ) * clampFrac frac)).toNat

/-- `block.setdefault("ocr_engine", e)`: set the tag only when absent. -/
def setdefault_engine (e : String) (b : TextBlock) : TextBlock :=
  match b.ocr_engine with
  | none => { b with ocr_engine := some e }
  | some _ => b

/-- `HybridOCR.process_batch` with the two engines abstracted as batch
functions.  Mirrors the source: enumerate the first `k` items and the rest,
run each engine on its (nonempty) sub-batch, then fill a `[None] * n` result
list by index, tagging each block via `setdefault`.  Positions never written
(possible only when an engine returns a short list) stay `none`. -/
def hybrid_process_batch (frac : ℚ)
    (primary fallback : List (String × String) → List (List TextBlock))
    (image_paths : List (String × String)) : List (Option (List TextBlock)) :=
  let n := image_paths.length
  let k := hybridSplitIndex frac n
  let primary_items := (image_paths.take k).enum
  let fallback_items := (image_paths.drop k).enumFrom k
  let primary_results := if primary_items.isEmpty then [] else primary (primary_items.map Prod.snd)
  let fallback_results := if fallback_items.isEmpty then [] else fallback (fallback_items.map Prod.snd)
  let results0 : List (Option (List TextBlock)) := List.replicate n none
  let results1 := (primary_items.zip primary_results).foldl
    (fun acc pr => acc.set pr.1.1 (some (pr.2.map (setdefault_engine "deepseek")))) results0
  let results2 := (fallback_items.zip fallback_results).foldl
    (fun acc pr => acc.set pr.1.1 (some (pr.2.map (setdefault_engine "openai")))) results1
  results2

/-! Helper lemmas (shared across claims). -/

lemma pyFloor_le (x : ℚ) (hx : 0 ≤ x) : (pyFloor x : ℚ) ≤ x := by
  have h0 : (0 : ℤ) ≤ ⌊x⌋ := Int.floor_nonneg.mpr hx
  have h1 : ((⌊x⌋.toNat : ℤ) : ℚ) ≤ x := by
    rw [Int.toNat_of_nonneg h0]
    exact Int.floor_le x
  exact_mod_cast h1

lemma sum_pyFloor_mul_le (l : List ℕ) (q : ℚ) (hq : 0 ≤ q) :
    (((l.map fun h : ℕ => pyFloor ((h : ℚ) * q)).sum : ℕ) : ℚ) ≤ (l.sum : ℚ) * q := by
  induction l with
  | nil => simp
  | cons h tl ih =>
    have h1 : (pyFloor ((h : ℚ) * q) : ℚ) ≤ (h : ℚ) * q :=
      pyFloor_le _ (mul_nonneg (by positivity) hq)
    simp only [List.map_cons, List.sum_cons, Nat.cast_add]
    push_cast
    push_cast at ih
    nlinarith [ih, h1]

lemma split_batch_results_length (ic : Bool) (t : String) (ids : List String) :
    (_split_batch_results ic t ids).length = ids.length := by
  simp [_split_batch_results]

/-! Claim theorems. -/

/-- Claim C4: `combine_screenshots` on a single-image list returns that
image unchanged, for every strategy and every size budget, even when the
image exceeds the budget — the singleton check precedes both the strategy
dispatch and any scaling. -/
theorem C4_combine_singleton_identity (img : PImage) (strategy : CombineStrategy)
    (max_width max_height spacing : ℕ) :
    combine_screenshots [img] strategy max_width max_height spacing = some img := rfl

/-- Claim C9: `force_flush` (the flush entry point) on an empty buffer
returns `[]` and leaves the whole state — in particular `last_flush` —
unchanged; on a non-empty buffer it returns all buffered
`(path, frame_id)` pairs in order, empties the buffer, and resets
`last_flush` to now. -/
theorem C9_force_flush (s : ScreenshotBuffer) (now : ℚ) :
    (s.buffer = [] → s.force_flush now = ([], s)) ∧
    (s.buffer ≠ [] →
      (s.force_flush now).1 = s.buffer.map (fun f => (f.path, f.frame_id)) ∧
      (s.force_flush now).2.buffer = [] ∧
      (s.force_flush now).2.last_flush = now) := by
  constructor
  · intro h
    simp [ScreenshotBuffer.force_flush, h]
  · intro h
    simp [ScreenshotBuffer.force_flush, ScreenshotBuffer.get_batch, h]

/-- Witness for C9 at two concrete buffer states (empty and singleton). -/
theorem C9_force_flush_witness :
    ScreenshotBuffer.force_flush ⟨[], 30, 30, 10, 7⟩ 100 = ([], ⟨[], 30, 30, 10, 7⟩) ∧
    (ScreenshotBuffer.force_flush ⟨[⟨"p", "f1", 0, none, none⟩], 30, 30, 10, 7⟩ 100).1 =
      [("p", "f1")] ∧
    (ScreenshotBuffer.force_flush ⟨[⟨"p", "f1", 0, none, none⟩], 30, 30, 10, 7⟩ 100).2.buffer =
      [] ∧
    (ScreenshotBuffer.force_flush ⟨[⟨"p", "f1", 0, none, none⟩], 30, 30, 10, 7⟩ 100).2.last_flush =
      100 :=
  ⟨(C9_force_flush ⟨[], 30, 30, 10, 7⟩ 100).1 rfl,
   ((C9_force_flush ⟨[⟨"p", "f1", 0, none, none⟩], 30, 30, 10, 7⟩ 100).2 (by decide)).1,
   ((C9_force_flush ⟨[⟨"p", "f1", 0, none, none⟩], 30, 30, 10, 7⟩ 100).2 (by decide)).2.1,
   ((C9_force_flush ⟨[⟨"p", "f1", 0, none, none⟩], 30, 30, 10, 7⟩ 100).2 (by decide)).2.2⟩

/-- Counterexample to claim C2: on a five-line transcript split over two
frames the source assigns `max(1, 5 // 2) = 2` lines to the first frame,
not the `ceil(5 / 2) = 3` lines the claim's chunk size prescribes. -/
theorem C2_counterexample :
    splitFrameText "L1\nL2\nL3\nL4\nL5" 2 0 = "L1\nL2" ∧
    ceilChunkFrameText "L1\nL2\nL3\nL4\nL5" 2 0 = "L1\nL2\nL3" ∧
    splitFrameText "L1\nL2\nL3\nL4\nL5" 2 0 ≠ ceilChunkFrameText "L1\nL2\nL3\nL4\nL5" 2 0 ∧
    (_split_batch_results false "L1\nL2\nL3\nL4\nL5" ["a", "b"]).map
      (fun l => l.map TextBlock.text) = [["L1\nL2"], ["L3\nL4\nL5"]] := by
  refine ⟨by decide, by decide, by decide, by decide⟩

/-- Counterexample to claim C3: a single 5000-wide image is returned
unchanged with width 5000 > 4096; two 1000×3000 images stacked vertically
with spacing 20 under a 4096 height budget are rescaled by `4096/6020`, yet
the unscaled spacing leaves the canvas at height 2·⌊3000·4096/6020⌋ + 20 =
4102 > 4096; and symmetrically two 3000×1000 images stacked horizontally
overflow the width budget the same way. -/
theorem C3_counterexample :
    combine_screenshots [⟨5000, 100⟩] .vertical_stack 4096 4096 20 = some ⟨5000, 100⟩ ∧
    4096 < (5000 : ℕ) ∧
    combine_screenshots [⟨1000, 3000⟩, ⟨1000, 3000⟩] .vertical_stack 4096 4096 20 =
      some ⟨1000, 4102⟩ ∧
    4096 < (4102 : ℕ) ∧
    combine_screenshots [⟨3000, 1000⟩, ⟨3000, 1000⟩] .horizontal_stack 4096 4096 20 =
      some ⟨4102, 1000⟩ ∧
    4096 < (4102 : ℕ) := by
  have hfloor : pyFloor ((614400 : ℚ) / 301) = 2041 := by
    have h1 : ⌊(614400 : ℚ) / 301⌋ = 2041 := by
      rw [Int.floor_eq_iff]
      norm_num
    unfold pyFloor
    rw [h1]
    rfl
  refine ⟨rfl, by norm_num, ?_, by norm_num, ?_, by norm_num⟩
  · have hpre : vstackPre [⟨1000, 3000⟩, ⟨1000, 3000⟩] 4096 =
        [⟨1000, 3000⟩, ⟨1000, 3000⟩] := by
      norm_num [vstackPre]
    have htot : vstackTotalHeight [⟨1000, 3000⟩, ⟨1000, 3000⟩] 4096 20 = 6020 := by
      norm_num [vstackTotalHeight, hpre]
    have htw : vstackTargetWidth [⟨1000, 3000⟩, ⟨1000, 3000⟩] 4096 = 1000 := by
      norm_num [vstackTargetWidth, hpre, listMax]
    show some (_vertical_stack [⟨1000, 3000⟩, ⟨1000, 3000⟩] 4096 4096 20) = _
    unfold _vertical_stack
    rw [htot, hpre, htw]
    norm_num [scaleBy, hfloor]
  · have hpre : hstackPre [⟨3000, 1000⟩, ⟨3000, 1000⟩] 4096 =
        [⟨3000, 1000⟩, ⟨3000, 1000⟩] := by
      norm_num [hstackPre]
    have htot : hstackTotalWidth [⟨3000, 1000⟩, ⟨3000, 1000⟩] 4096 20 = 6020 := by
      norm_num [hstackTotalWidth, hpre]
    have hth : hstackTargetHeight [⟨3000, 1000⟩, ⟨3000, 1000⟩] 4096 = 1000 := by
      norm_num [hstackTargetHeight, hpre, listMax]
    show some (_horizontal_stack [⟨3000, 1000⟩, ⟨3000, 1000⟩] 4096 4096 20) = _
    unfold _horizontal_stack
    rw [htot, hpre, hth]
    norm_num [scaleBy, hfloor]

/-- Counterexample to claim C6: with every `_process_via_mlx` attempt
failing the way a model-load failure does (a non-timeout exception, which
`_ensure_mlx_loaded` re-raises into the loop body), `extract_text` with
`max_retries = 3` does not propagate the failure: it retries three times
(sleeping 1 second twice) and returns the empty list. -/
theorem C6_counterexample :
    extract_text 3 true true (fun _ => .failure) (fun _ => []) = ⟨[], 3, [1, 1]⟩ := by
  decide

/-- Counterexample to claim C8: on an empty buffer with
`min_flush_size = 0` and a long elapsed time, the claim's condition
(elapsed ≥ duration and length ≥ min-flush-size) holds, yet `should_flush`
returns `false` because of its leading emptiness guard. -/
theorem C8_counterexample :
    ¬ (ScreenshotBuffer.should_flush ⟨[], 30, 30, 0, 0⟩ 100 = true ↔
       ((30 : ℕ) ≤ ([] : List BufferedFrame).length ∨
        ((30 : ℚ) ≤ 100 - 0 ∧ (0 : ℕ) ≤ ([] : List BufferedFrame).length))) := by
  intro h
  have h2 : ScreenshotBuffer.should_flush ⟨[], 30, 30, 0, 0⟩ 100 = true :=
    h.mpr (Or.inr ⟨by norm_num, Nat.zero_le _⟩)
  simp [ScreenshotBuffer.should_flush] at h2

/-- Claim C1: `process_batch` on n items returns exactly n per-frame lists,
for every per-item extraction behaviour and whether or not the combined
(batch) step succeeds; and when the batch step fails on a true batch, the
fallback result is exactly the per-item results in input order (a failed
item contributes its — possibly empty — own result at its own position). -/
theorem C1_process_batch_shape (ext : String × String → List TextBlock)
    (batch : Except Unit String) (ic : Bool) (items : List (String × String)) :
    (process_batch ext batch ic items).length = items.length ∧
    (batch = .error () → 2 ≤ items.length →
      process_batch ext batch ic items = items.map ext) := by
  constructor
  · match items with
    | [] => rfl
    | [item] => rfl
    | a :: b :: t =>
      cases batch with
      | ok s =>
        simpa [process_batch] using
          split_batch_results_length ic s ((a :: b :: t).map Prod.snd)
      | error e => simp [process_batch]
  · intro hb hn
    match items with
    | [] => simp at hn
    | [item] => simp at hn
    | a :: b :: t => subst hb; rfl

/-- Witness for C1 on a two-item batch whose combined step fails and whose
per-item extraction returns nothing. -/
theorem C1_process_batch_shape_witness :
    (process_batch (fun _ => []) (.error ()) true [("a", "1"), ("b", "2")]).length = 2 ∧
    process_batch (fun _ => ([] : List TextBlock)) (.error ()) true [("a", "1"), ("b", "2")] =
      [("a", "1"), ("b", "2")].map (fun _ => []) :=
  ⟨(C1_process_batch_shape (fun _ => []) (.error ()) true [("a", "1"), ("b", "2")]).1,
   (C1_process_batch_shape (fun _ => []) (.error ()) true [("a", "1"), ("b", "2")]).2 rfl
     (by norm_num)⟩

/-- The contiguous windows `take c (drop (i*c))` for `i < k`, followed by
the leftover `drop (k*c)`, tile the whole list. -/
lemma chunks_flatten_aux {α : Type} (l : List α) (c : ℕ) :
    ∀ k, ((List.range k).map fun i => (l.drop (i * c)).take c).flatten ++ l.drop (k * c) = l := by
  intro k
  induction k with
  | zero => simp
  | succ k ih =>
    rw [List.range_succ, List.map_append, List.flatten_append]
    have hstep : ((l.drop (k * c)).take c) ++ l.drop ((k + 1) * c) = l.drop (k * c) := by
      have h1 : l.drop ((k + 1) * c) = (l.drop (k * c)).drop c := by
        rw [List.drop_drop]
        ring_nf
      rw [h1]
      exact List.take_append_drop c (l.drop (k * c))
    simp only [List.map_cons, List.map_nil, List.flatten_cons, List.flatten_nil,
      List.append_nil, List.append_assoc]
    rw [hstep, ih]

/-- Non-final frames take exactly one `lines_per_frame`-sized window. -/
lemma splitFrameLines_eq_take (t : String) (n i : ℕ) (h : i + 1 < n) :
    splitFrameLines t n i =
      ((pySplitLines t).drop (i * max 1 ((pySplitLines t).length / n))).take
        (max 1 ((pySplitLines t).length / n)) := by
  simp only [splitFrameLines]
  rw [if_neg (by omega)]
  congr 1
  omega

/-- The final frame absorbs every remaining line. -/
lemma splitFrameLines_last (t : String) (n : ℕ) (_h : 1 ≤ n) :
    splitFrameLines t n (n - 1) =
      (pySplitLines t).drop ((n - 1) * max 1 ((pySplitLines t).length / n)) := by
  simp only [splitFrameLines, if_true]
  rw [show (pySplitLines t).length - (n - 1) * max 1 ((pySplitLines t).length / n) =
      ((pySplitLines t).drop ((n - 1) * max 1 ((pySplitLines t).length / n))).length by
    rw [List.length_drop]]
  exact List.take_length _

/-- Claim C2 (amended): the splitter returns one entry per frame and divides
the transcript's lines into contiguous chunks of `max(1, total_lines // n)`
lines (floor division, not ceiling), one per frame in original order, the
final frame absorbing all remaining lines; together the chunks tile the
whole line list, and on the four-line two-frame example the frames get
lines 1-2 and lines 3-4. -/
theorem C2_amended (ic : Bool) (t : String) (frame_ids : List String)
    (hne : frame_ids ≠ []) :
    (_split_batch_results ic t frame_ids).length = frame_ids.length ∧
    (∀ i, i + 1 < frame_ids.length →
      splitFrameLines t frame_ids.length i =
        ((pySplitLines t).drop (i * max 1 ((pySplitLines t).length / frame_ids.length))).take
          (max 1 ((pySplitLines t).length / frame_ids.length))) ∧
    splitFrameLines t frame_ids.length (frame_ids.length - 1) =
      (pySplitLines t).drop
        ((frame_ids.length - 1) * max 1 ((pySplitLines t).length / frame_ids.length)) ∧
    ((List.range frame_ids.length).map (splitFrameLines t frame_ids.length)).flatten =
      pySplitLines t ∧
    splitFrameText "Line1\nLine2\nLine3\nLine4" 2 0 = "Line1\nLine2" ∧
    splitFrameText "Line1\nLine2\nLine3\nLine4" 2 1 = "Line3\nLine4" := by
  have hn : 1 ≤ frame_ids.length := by
    cases frame_ids with
    | nil => exact absurd rfl hne
    | cons a l => simp
  refine ⟨split_batch_results_length ic t frame_ids, ?_, ?_, ?_, by decide, by decide⟩
  · intro i hi
    exact splitFrameLines_eq_take t frame_ids.length i hi
  · exact splitFrameLines_last t frame_ids.length hn
  · obtain ⟨m, hm⟩ : ∃ m, frame_ids.length = m + 1 := ⟨frame_ids.length - 1, by omega⟩
    rw [hm, List.range_succ, List.map_append, List.flatten_append]
    have hlast : splitFrameLines t (m + 1) m =
        (pySplitLines t).drop (m * max 1 ((pySplitLines t).length / (m + 1))) := by
      have := splitFrameLines_last t (m + 1) (by omega)
      simpa using this
    have hmid : (List.range m).map (splitFrameLines t (m + 1)) =
        (List.range m).map fun i =>
          ((pySplitLines t).drop (i * max 1 ((pySplitLines t).length / (m + 1)))).take
            (max 1 ((pySplitLines t).length / (m + 1))) := by
      apply List.map_congr_left
      intro i hi
      rw [List.mem_range] at hi
      exact splitFrameLines_eq_take t (m + 1) i (by omega)
    simp only [List.map_cons, List.map_nil, List.flatten_cons, List.flatten_nil,
      List.append_nil]
    rw [hmid, hlast]
    exact chunks_flatten_aux (pySplitLines t) (max 1 ((pySplitLines t).length / (m + 1))) m

/-- Witness for C2 (amended) on the spec's four-line two-frame example. -/
theorem C2_amended_witness :
    (_split_batch_results true "Line1\nLine2\nLine3\nLine4" ["a", "b"]).length = 2 ∧
    splitFrameText "Line1\nLine2\nLine3\nLine4" 2 0 = "Line1\nLine2" ∧
    splitFrameText "Line1\nLine2\nLine3\nLine4" 2 1 = "Line3\nLine4" :=
  ⟨(C2_amended true "Line1\nLine2\nLine3\nLine4" ["a", "b"] (by decide)).1,
   (C2_amended true "Line1\nLine2\nLine3\nLine4" ["a", "b"] (by decide)).2.2.2.2.1,
   (C2_amended true "Line1\nLine2\nLine3\nLine4" ["a", "b"] (by decide)).2.2.2.2.2⟩

/-- The rescaled-extent bound shared by both stack directions: when a list
of extents is shrunk by `budget / total` with `total` exceeding the budget
and at least the extent sum, the floored rescaled extents sum to at most the
budget. -/
lemma sum_scaled_le_budget (l : List ℕ) (budget T : ℕ) (hBT : budget < T)
    (hST : l.sum ≤ T) :
    ((l.map fun h : ℕ => pyFloor ((h : ℚ) * ((budget : ℚ) / (T : ℚ)))).sum) ≤ budget := by
  have hq0 : (0 : ℚ) ≤ (budget : ℚ) / (T : ℚ) := by positivity
  have h1 := sum_pyFloor_mul_le l ((budget : ℚ) / (T : ℚ)) hq0
  have hT0 : (0 : ℚ) < (T : ℚ) := by
    have : 0 < T := by omega
    exact_mod_cast this
  have hS : ((l.sum : ℕ) : ℚ) ≤ (T : ℚ) := by exact_mod_cast hST
  have h2q : ((l.sum : ℕ) : ℚ) * ((budget : ℚ) / (T : ℚ)) ≤ (budget : ℚ) := by
    rw [mul_div_assoc']
    rw [div_le_iff₀ hT0]
    have hH0 : (0 : ℚ) ≤ (budget : ℚ) := Nat.cast_nonneg budget
    nlinarith [hS, hH0]
  have h3 : (((l.map fun h : ℕ =>
      pyFloor ((h : ℚ) * ((budget : ℚ) / (T : ℚ)))).sum : ℕ) : ℚ) ≤ (budget : ℚ) :=
    le_trans h1 h2q
  exact_mod_cast h3

/-- Python `//` by a positive divisor, times that divisor, is at most the
dividend. -/
lemma int_mul_fdiv_le (x c : ℤ) (hc : 0 < c) : c * Int.fdiv x c ≤ x := by
  rw [Int.fdiv_eq_ediv _ (le_of_lt hc)]
  have h1 := Int.ediv_add_emod x c
  have h2 := Int.emod_nonneg x (ne_of_gt hc)
  linarith

/-- `ceil(sqrt(n))` is positive for positive n. -/
lemma ceilSqrt_pos (n : ℕ) (h : 1 ≤ n) : 1 ≤ ceilSqrt n := by
  unfold ceilSqrt
  split
  · rcases Nat.eq_zero_or_pos (Nat.sqrt n) with h0 | h0
    · rw [Nat.sqrt_eq_zero] at h0
      omega
    · exact h0
  · omega

/-- Claim C3 (amended): for batches of at least two images, `vertical_stack`
keeps the width within `max_width` and the height within
`max_height + spacing·(n−1)`; `horizontal_stack`, symmetrically, keeps the
height within `max_height` and the width within
`max_width + spacing·(n−1)` — in both stacks, when the summed extents plus
spacing exceed the budget every image is uniformly rescaled by
`budget / total`, but the inter-image spacing is not rescaled and can push
the canvas past the budget; `grid` fits within both `max_width` and
`max_height` because its floor-division cell sizes leave room for the
spacing.  (A single image is returned unchanged, bounds unchecked — see the
counterexample.) -/
theorem C3_amended (images : List PImage) (W H sp : ℕ) (h2 : 2 ≤ images.length) :
    (combine_screenshots images .vertical_stack W H sp =
      some (_vertical_stack images W H sp) ∧
     (_vertical_stack images W H sp).width ≤ W ∧
     (_vertical_stack images W H sp).height ≤ H + sp * (images.length - 1)) ∧
    (combine_screenshots images .horizontal_stack W H sp =
      some (_horizontal_stack images W H sp) ∧
     (_horizontal_stack images W H sp).height ≤ H ∧
     (_horizontal_stack images W H sp).width ≤ W + sp * (images.length - 1)) ∧
    (combine_screenshots images .grid W H sp =
      some (_grid_layout images W H sp) ∧
     (_grid_layout images W H sp).width ≤ W ∧
     (_grid_layout images W H sp).height ≤ H) := by
  refine ⟨⟨?_, ?_, ?_⟩, ⟨?_, ?_, ?_⟩, ⟨?_, ?_, ?_⟩⟩
  · match images, h2 with
    | a :: b :: t, _ => rfl
  · unfold _vertical_stack
    split
    · show vstackTargetWidth images W ≤ W
      unfold vstackTargetWidth
      exact min_le_right _ _
    · show vstackTargetWidth images W ≤ W
      unfold vstackTargetWidth
      exact min_le_right _ _
  · unfold _vertical_stack
    split
    case isTrue hc =>
      show (((vstackPre images W).map fun img =>
          scaleBy img ((H : ℚ) / (vstackTotalHeight images W sp : ℚ))).map PImage.height).sum
          + sp * (images.length - 1) ≤ H + sp * (images.length - 1)
      refine Nat.add_le_add_right ?_ _
      have hmm : (((vstackPre images W).map fun img =>
          scaleBy img ((H : ℚ) / (vstackTotalHeight images W sp : ℚ))).map PImage.height)
          = ((vstackPre images W).map PImage.height).map
              (fun h : ℕ =>
                pyFloor ((h : ℚ) * ((H : ℚ) / (vstackTotalHeight images W sp : ℚ)))) := by
        simp only [List.map_map]
        rfl
      rw [hmm]
      refine sum_scaled_le_budget _ H (vstackTotalHeight images W sp) hc ?_
      unfold vstackTotalHeight
      exact Nat.le_add_right _ _
    case isFalse hc =>
      show vstackTotalHeight images W sp ≤ H + sp * (images.length - 1)
      exact le_trans (Nat.not_lt.mp hc) (Nat.le_add_right _ _)
  · match images, h2 with
    | a :: b :: t, _ => rfl
  · unfold _horizontal_stack
    split
    · show hstackTargetHeight images H ≤ H
      unfold hstackTargetHeight
      exact min_le_right _ _
    · show hstackTargetHeight images H ≤ H
      unfold hstackTargetHeight
      exact min_le_right _ _
  · unfold _horizontal_stack
    split
    case isTrue hc =>
      show (((hstackPre images H).map fun img =>
          scaleBy img ((W : ℚ) / (hstackTotalWidth images H sp : ℚ))).map PImage.width).sum
          + sp * (images.length - 1) ≤ W + sp * (images.length - 1)
      refine Nat.add_le_add_right ?_ _
      have hmm : (((hstackPre images H).map fun img =>
          scaleBy img ((W : ℚ) / (hstackTotalWidth images H sp : ℚ))).map PImage.width)
          = ((hstackPre images H).map PImage.width).map
              (fun h : ℕ =>
                pyFloor ((h : ℚ) * ((W : ℚ) / (hstackTotalWidth images H sp : ℚ)))) := by
        simp only [List.map_map]
        rfl
      rw [hmm]
      refine sum_scaled_le_budget _ W (hstackTotalWidth images H sp) hc ?_
      unfold hstackTotalWidth
      exact Nat.le_add_right _ _
    case isFalse hc =>
      show hstackTotalWidth images H sp ≤ W + sp * (images.length - 1)
      exact le_trans (Nat.not_lt.mp hc) (Nat.le_add_right _ _)
  · match images, h2 with
    | a :: b :: t, _ => rfl
  · have hcols : 0 < ceilSqrt images.length := ceilSqrt_pos _ (by omega)
    show (((ceilSqrt images.length : ℤ) *
        Int.fdiv ((W : ℤ) - (sp : ℤ) * ((ceilSqrt images.length : ℤ) - 1))
          (ceilSqrt images.length : ℤ) +
        (sp : ℤ) * ((ceilSqrt images.length : ℤ) - 1)).toNat) ≤ W
    rw [Int.toNat_le]
    have hmul := int_mul_fdiv_le ((W : ℤ) - (sp : ℤ) * ((ceilSqrt images.length : ℤ) - 1))
      (ceilSqrt images.length : ℤ) (by exact_mod_cast hcols)
    linarith
  · have hcols : 0 < ceilSqrt images.length := ceilSqrt_pos _ (by omega)
    have hrows : 0 < (images.length + ceilSqrt images.length - 1) / ceilSqrt images.length := by
      rw [Nat.lt_iff_add_one_le, Nat.one_le_div_iff hcols]
      omega
    show (((((images.length + ceilSqrt images.length - 1) / ceilSqrt images.length : ℕ) : ℤ) *
        Int.fdiv ((H : ℤ) - (sp : ℤ) *
          ((((images.length + ceilSqrt images.length - 1) / ceilSqrt images.length : ℕ) : ℤ) - 1))
          (((images.length + ceilSqrt images.length - 1) / ceilSqrt images.length : ℕ) : ℤ) +
        (sp : ℤ) * ((((images.length + ceilSqrt images.length - 1) /
          ceilSqrt images.length : ℕ) : ℤ) - 1)).toNat) ≤ H
    rw [Int.toNat_le]
    have hmul := int_mul_fdiv_le ((H : ℤ) - (sp : ℤ) *
        ((((images.length + ceilSqrt images.length - 1) / ceilSqrt images.length : ℕ) : ℤ) - 1))
      (((images.length + ceilSqrt images.length - 1) / ceilSqrt images.length : ℕ) : ℤ)
      (by exact_mod_cast hrows)
    linarith

/-- Witness for C3 (amended) on the spec's three-image 800×600 scenario. -/
theorem C3_amended_witness :
    combine_screenshots [⟨800, 600⟩, ⟨800, 600⟩, ⟨800, 600⟩] .vertical_stack 4096 4096 10 =
      some (_vertical_stack [⟨800, 600⟩, ⟨800, 600⟩, ⟨800, 600⟩] 4096 4096 10) ∧
    (_vertical_stack [⟨800, 600⟩, ⟨800, 600⟩, ⟨800, 600⟩] 4096 4096 10).width ≤ 4096 ∧
    (_vertical_stack [⟨800, 600⟩, ⟨800, 600⟩, ⟨800, 600⟩] 4096 4096 10).height ≤ 4096 + 10 * 2 ∧
    (_horizontal_stack [⟨800, 600⟩, ⟨800, 600⟩, ⟨800, 600⟩] 4096 4096 10).height ≤ 4096 ∧
    (_grid_layout [⟨800, 600⟩, ⟨800, 600⟩, ⟨800, 600⟩] 4096 4096 10).width ≤ 4096 ∧
    (_grid_layout [⟨800, 600⟩, ⟨800, 600⟩, ⟨800, 600⟩] 4096 4096 10).height ≤ 4096 :=
  ⟨(C3_amended [⟨800, 600⟩, ⟨800, 600⟩, ⟨800, 600⟩] 4096 4096 10 (by norm_num)).1.1,
   (C3_amended [⟨800, 600⟩, ⟨800, 600⟩, ⟨800, 600⟩] 4096 4096 10 (by norm_num)).1.2.1,
   (C3_amended [⟨800, 600⟩, ⟨800, 600⟩, ⟨800, 600⟩] 4096 4096 10 (by norm_num)).1.2.2,
   (C3_amended [⟨800, 600⟩, ⟨800, 600⟩, ⟨800, 600⟩] 4096 4096 10 (by norm_num)).2.1.2.1,
   (C3_amended [⟨800, 600⟩, ⟨800, 600⟩, ⟨800, 600⟩] 4096 4096 10 (by norm_num)).2.2.2.1,
   (C3_amended [⟨800, 600⟩, ⟨800, 600⟩, ⟨800, 600⟩] 4096 4096 10 (by norm_num)).2.2.2.2⟩

/-- `k = int(math.ceil(n * ratio))` with a clamped ratio never exceeds n. -/
lemma hybridSplitIndex_le (frac : ℚ) (n : ℕ) : hybridSplitIndex frac n ≤ n := by
  unfold hybridSplitIndex
  have hcl : clampFrac frac ≤ 1 := by
    unfold clampFrac
    exact max_le (by norm_num) (min_le_left _ _)
  have h1 : (n : ℚ) * clampFrac frac ≤ (n : ℚ) :=
    mul_le_of_le_one_right (Nat.cast_nonneg n) hcl
  have h2 : Int.ceil ((n : ℚ) * clampFrac frac) ≤ (n : ℤ) := by
    rw [Int.ceil_le]
    exact_mod_cast h1
  exact Int.toNat_le.mpr h2

/-- Writing values at consecutive indices (via `enumFrom`-tagged pairs, as
the hybrid merge loops do) into a sufficiently long list replaces exactly
the corresponding window. -/
lemma foldl_set_fill {α γ δ : Type} (g : γ → α) (xs : List δ) :
    ∀ (vs : List γ) (start : ℕ) (init : List α),
      xs.length = vs.length → start + vs.length ≤ init.length →
      ((xs.enumFrom start).zip vs).foldl (fun acc pr => acc.set pr.1.1 (g pr.2)) init =
        init.take start ++ vs.map g ++ init.drop (start + vs.length) := by
  induction xs with
  | nil =>
    intro vs start init hlen hle
    have hvs : vs = [] := List.length_eq_zero.mp (hlen.symm.trans rfl)
    subst hvs
    simp [List.take_append_drop]
  | cons x xs ih =>
    intro vs start init hlen hle
    cases vs with
    | nil => simp at hlen
    | cons v vs =>
      have hs : start < init.length := by
        simp at hle
        omega
      simp only [List.enumFrom_cons, List.zip_cons_cons, List.foldl_cons]
      rw [ih vs (start + 1) (init.set start (g v)) (by simpa using hlen)
        (by simp only [List.length_set]; simp at hle ⊢; omega)]
      rw [List.set_eq_take_cons_drop (g v) hs]
      have htk : (init.take start ++ g v :: init.drop (start + 1)).take (start + 1) =
          init.take start ++ [g v] := by
        rw [List.take_append_eq_append_take]
        rw [List.take_of_length_le (by simp only [List.length_take]; omega)]
        congr 1
        have : start + 1 - (init.take start).length = 1 := by
          simp only [List.length_take]
          omega
        rw [this]
        rfl
      have hdr : (init.take start ++ g v :: init.drop (start + 1)).drop
          (start + 1 + vs.length) = init.drop (start + (vs.length + 1)) := by
        rw [List.drop_append_eq_append_drop]
        rw [List.drop_of_length_le (by simp only [List.length_take]; omega)]
        have h1 : start + 1 + vs.length - (init.take start).length = 1 + vs.length := by
          simp only [List.length_take]
          omega
        rw [h1]
        show (g v :: init.drop (start + 1)).drop (1 + vs.length) = _
        rw [show 1 + vs.length = vs.length + 1 by omega]
        rw [List.drop_succ_cons]
        rw [List.drop_drop]
        congr 1
        omega
      rw [htk, hdr]
      simp

/-- Claim C5: `HybridOCR.process_batch` routes exactly the first
`k = ceil(n · clamp(ratio, 0, 1))` items, in original order, to the primary
engine and the rest to the fallback engine, and (whenever each engine
returns one result list per item) the merged output is the primary results
followed by the fallback results in input positions — same length and order
as the input — with each block's `ocr_engine` tag set via `setdefault`
(only if not already set).  `ratio ≤ 0` routes everything to the fallback
and `ratio ≥ 1` everything to the primary. -/
theorem C5_hybrid_routing (frac : ℚ)
    (primary fallback : List (String × String) → List (List TextBlock))
    (items : List (String × String))
    (hp : ∀ xs, (primary xs).length = xs.length)
    (hf : ∀ xs, (fallback xs).length = xs.length) :
    hybrid_process_batch frac primary fallback items =
      (primary (items.take (hybridSplitIndex frac items.length))).map
        (fun r : List TextBlock => some (r.map (setdefault_engine "deepseek"))) ++
      (fallback (items.drop (hybridSplitIndex frac items.length))).map
        (fun r : List TextBlock => some (r.map (setdefault_engine "openai"))) ∧
    (hybrid_process_batch frac primary fallback items).length = items.length ∧
    (frac ≤ 0 → hybridSplitIndex frac items.length = 0) ∧
    (1 ≤ frac → hybridSplitIndex frac items.length = items.length) := by
  have hk0 := hybridSplitIndex_le frac items.length
  obtain ⟨k, hkdef⟩ : ∃ k, hybridSplitIndex frac items.length = k := ⟨_, rfl⟩
  rw [hkdef] at hk0
  rw [hkdef]
  have htk : (items.take k).length = k := by
    rw [List.length_take]
    omega
  have hdk : (items.drop k).length = items.length - k := List.length_drop _ _
  have hmain : hybrid_process_batch frac primary fallback items =
      (primary (items.take k)).map
        (fun r : List TextBlock => some (r.map (setdefault_engine "deepseek"))) ++
      (fallback (items.drop k)).map
        (fun r : List TextBlock => some (r.map (setdefault_engine "openai"))) := by
    simp only [hybrid_process_batch]
    rw [hkdef]
    have hprim : (if (items.take k).enum.isEmpty = true then []
        else primary ((items.take k).enum.map Prod.snd)) = primary (items.take k) := by
      by_cases he : (items.take k).enum.isEmpty = true
      · rw [if_pos he]
        have h0 : items.take k = [] := by
          rw [List.isEmpty_iff] at he
          have h1 : (items.take k).enum.length = 0 := by rw [he]; rfl
          rw [List.enum_length] at h1
          exact List.length_eq_zero.mp h1
        rw [h0]
        exact (List.length_eq_zero.mp (hp [])).symm
      · rw [if_neg he]
        rw [show (items.take k).enum = List.enumFrom 0 (items.take k) from rfl]
        rw [List.enumFrom_map_snd]
    have hfall : (if ((items.drop k).enumFrom k).isEmpty = true then []
        else fallback (((items.drop k).enumFrom k).map Prod.snd)) =
        fallback (items.drop k) := by
      by_cases he : ((items.drop k).enumFrom k).isEmpty = true
      · rw [if_pos he]
        have h0 : items.drop k = [] := by
          rw [List.isEmpty_iff] at he
          have h1 : ((items.drop k).enumFrom k).length = 0 := by rw [he]; rfl
          rw [List.enumFrom_length] at h1
          exact List.length_eq_zero.mp h1
        rw [h0]
        exact (List.length_eq_zero.mp (hf [])).symm
      · rw [if_neg he]
        rw [List.enumFrom_map_snd]
    rw [hprim, hfall]
    rw [show (items.take k).enum = List.enumFrom 0 (items.take k) from rfl]
    have hfill1 : ((List.enumFrom 0 (items.take k)).zip (primary (items.take k))).foldl
        (fun acc pr => acc.set pr.1.1 (some (pr.2.map (setdefault_engine "deepseek"))))
        (List.replicate items.length none) =
        (primary (items.take k)).map
          (fun r : List TextBlock => some (r.map (setdefault_engine "deepseek"))) ++
          List.replicate (items.length - k) none := by
      rw [foldl_set_fill (fun r : List TextBlock => some (r.map (setdefault_engine "deepseek")))
        (items.take k) (primary (items.take k)) 0 (List.replicate items.length none)
        (by rw [hp]) (by simp [hp, htk]; omega)]
      simp [List.drop_replicate, hp, htk]
    rw [hfill1]
    have hlen1 : ((primary (items.take k)).map
        (fun r : List TextBlock => some (r.map (setdefault_engine "deepseek"))) ++
        List.replicate (items.length - k) none).length = items.length := by
      simp [hp, htk]
      omega
    rw [foldl_set_fill (fun r : List TextBlock => some (r.map (setdefault_engine "openai")))
      (items.drop k) (fallback (items.drop k)) k _
      (by rw [hf]) (by rw [hlen1, hf, hdk]; omega)]
    have hpre : (((primary (items.take k)).map
        (fun r : List TextBlock => some (r.map (setdefault_engine "deepseek"))) ++
        List.replicate (items.length - k) none)).take k =
        (primary (items.take k)).map
          (fun r : List TextBlock => some (r.map (setdefault_engine "deepseek"))) := by
      rw [List.take_append_eq_append_take]
      rw [List.take_of_length_le (by simp [hp, htk])]
      rw [show k - ((primary (items.take k)).map
        (fun r : List TextBlock => some (r.map (setdefault_engine "deepseek")))).length = 0 by
          simp [hp, htk]]
      simp
    have hpost : (((primary (items.take k)).map
        (fun r : List TextBlock => some (r.map (setdefault_engine "deepseek"))) ++
        List.replicate (items.length - k) none)).drop
        (k + (fallback (items.drop k)).length) = [] := by
      apply List.drop_eq_nil_of_le
      rw [hlen1, hf, hdk]
      omega
    rw [hpre, hpost]
    simp
  refine ⟨hmain, ?_, ?_, ?_⟩
  · rw [hmain]
    simp [hp, hf, htk, hdk]
    omega
  · intro h0
    rw [← hkdef]
    unfold hybridSplitIndex
    have hc : clampFrac frac = 0 := by
      unfold clampFrac
      rw [max_eq_left]
      exact le_trans (min_le_right _ _) h0
    rw [hc]
    simp
  · intro h1
    rw [← hkdef]
    unfold hybridSplitIndex
    have hc : clampFrac frac = 1 := by
      unfold clampFrac
      rw [min_eq_left h1]
      rw [max_eq_right]
      norm_num
    rw [hc]
    simp

/-- Witness for C5 on a two-item batch at ratio 1/2 (plus the two clamp
edges at ratios 0 and 1). -/
theorem C5_hybrid_routing_witness :
    hybrid_process_batch (1/2) (fun xs => xs.map fun _ => [])
      (fun xs => xs.map fun _ => []) [("a", "1"), ("b", "2")] = [some [], some []] ∧
    (hybrid_process_batch (1/2) (fun xs => xs.map fun _ => [])
      (fun xs => xs.map fun _ => []) [("a", "1"), ("b", "2")]).length = 2 ∧
    hybridSplitIndex 0 2 = 0 ∧
    hybridSplitIndex 1 2 = 2 := by
  have h := C5_hybrid_routing (1/2) (fun xs => xs.map fun _ => [])
    (fun xs => xs.map fun _ => []) [("a", "1"), ("b", "2")]
    (fun xs => by simp) (fun xs => by simp)
  have hk : hybridSplitIndex (1/2) 2 = 1 := by
    unfold hybridSplitIndex clampFrac
    norm_num
  refine ⟨?_, h.2.1, ?_, ?_⟩
  · rw [h.1]
    have hk2 : hybridSplitIndex (1/2)
        ([("a", "1"), ("b", "2")] : List (String × String)).length = 1 := hk
    rw [hk2]
    simp
  · exact (C5_hybrid_routing 0 (fun xs => xs.map fun _ => [])
      (fun xs => xs.map fun _ => []) [("a", "1"), ("b", "2")]
      (fun xs => by simp) (fun xs => by simp)).2.2.1 le_rfl
  · exact (C5_hybrid_routing 1 (fun xs => xs.map fun _ => [])
      (fun xs => xs.map fun _ => []) [("a", "1"), ("b", "2")]
      (fun xs => by simp) (fun xs => by simp)).2.2.2 le_rfl

/-- When every attempt raises a non-timeout exception, the retry loop sleeps
one second between attempts, uses up all its iterations and returns `[]`. -/
lemma extractLoop_failure (conv : String → List TextBlock) (outcome : ℕ → MlxOutcome)
    (hfail : ∀ a, outcome a = .failure) :
    ∀ fuel attempt, extractLoop conv outcome fuel attempt =
      ⟨[], fuel, List.replicate (fuel - 1) (1 : ℚ)⟩ := by
  intro fuel
  induction fuel with
  | zero => intro a; rfl
  | succ f ih =>
    intro a
    simp only [extractLoop, hfail a]
    cases f with
    | zero => simp
    | succ g =>
      rw [if_neg (by omega)]
      rw [ih (a + 1)]
      simp [List.replicate_succ]

/-- Claim C6 (amended): a model-load failure (re-raised by
`_ensure_mlx_loaded` into the retry loop as a generic exception) is not
raised out of `extract_text`: the loop catches it, retries with 1-second
sleeps through all `max_retries` attempts, and the caller receives an empty
block list instead of an exception. -/
theorem C6_amended (m : ℕ) (outcome : ℕ → MlxOutcome) (conv : String → List TextBlock)
    (hfail : ∀ a, outcome a = .failure) :
    extract_text m true true outcome conv = ⟨[], m, List.replicate (m - 1) (1 : ℚ)⟩ := by
  unfold extract_text
  simp only [Bool.true_eq_false, if_false]
  exact extractLoop_failure conv outcome hfail m 0

/-- Witness for C6 (amended) at `max_retries = 2`. -/
theorem C6_amended_witness :
    extract_text 2 true true (fun _ => .failure) (fun _ => []) = ⟨[], 2, [1]⟩ := by
  have h := C6_amended 2 (fun _ => .failure) (fun _ => []) (fun _ => rfl)
  simpa using h

/-- When every attempt times out, the retry loop sleeps `2^attempt` seconds
between attempts, uses up all its iterations and returns `[]`. -/
lemma extractLoop_timeout (conv : String → List TextBlock) (outcome : ℕ → MlxOutcome)
    (hto : ∀ a, outcome a = .timeout) :
    ∀ fuel attempt, extractLoop conv outcome fuel attempt =
      ⟨[], fuel, (List.range (fuel - 1)).map fun j => (2 : ℚ) ^ (attempt + j)⟩ := by
  intro fuel
  induction fuel with
  | zero => intro a; rfl
  | succ f ih =>
    intro a
    simp only [extractLoop, hto a]
    cases f with
    | zero => simp
    | succ g =>
      rw [if_neg (by omega)]
      rw [ih (a + 1)]
      simp only [ExtractTrace.mk.injEq, true_and]
      have hg1 : g + 1 - 1 = g := by omega
      have hg2 : g + 1 + 1 - 1 = g + 1 := by omega
      rw [hg1, hg2, List.range_succ_eq_map]
      have hmap : (List.map Nat.succ (List.range g)).map (fun j => (2 : ℚ) ^ (a + j)) =
          (List.range g).map (fun j => (2 : ℚ) ^ (a + 1 + j)) := by
        rw [List.map_map]
        apply List.map_congr_left
        intro j _
        simp only [Function.comp_apply]
        congr 1
        omega
      simp only [List.map_cons]
      rw [hmap]
      simp

/-- Claim C7: `extract_text` never raises for per-item failures (it is a
total function into result traces); a missing or unreadable image yields an
empty list immediately — zero model attempts, zero sleeps; and under
persistent timeouts it performs `max_retries` attempts sleeping
`2^attempt` seconds between consecutive attempts before returning an empty
list. -/
theorem C7_extract_text_errors (m : ℕ) (b : Bool) (outcome : ℕ → MlxOutcome)
    (conv : String → List TextBlock) :
    extract_text m false b outcome conv = ⟨[], 0, []⟩ ∧
    extract_text m true false outcome conv = ⟨[], 0, []⟩ ∧
    ((∀ a, outcome a = .timeout) →
      extract_text m true true outcome conv =
        ⟨[], m, (List.range (m - 1)).map fun j => (2 : ℚ) ^ j⟩) := by
  refine ⟨rfl, rfl, ?_⟩
  intro hto
  unfold extract_text
  simp only [Bool.true_eq_false, if_false]
  rw [extractLoop_timeout conv outcome hto m 0]
  simp

/-- Witness for C7 at `max_retries = 3` (backoffs 1 and 2 seconds). -/
theorem C7_extract_text_errors_witness :
    extract_text 3 false true (fun _ => MlxOutcome.timeout) (fun _ => []) = ⟨[], 0, []⟩ ∧
    extract_text 3 true false (fun _ => MlxOutcome.timeout) (fun _ => []) = ⟨[], 0, []⟩ ∧
    extract_text 3 true true (fun _ => MlxOutcome.timeout) (fun _ => []) =
      ⟨[], 3, (List.range 2).map fun j => (2 : ℚ) ^ j⟩ :=
  ⟨(C7_extract_text_errors 3 true (fun _ => MlxOutcome.timeout) (fun _ => [])).1,
   (C7_extract_text_errors 3 true (fun _ => MlxOutcome.timeout) (fun _ => [])).2.1,
   (C7_extract_text_errors 3 true (fun _ => MlxOutcome.timeout) (fun _ => [])).2.2
     (fun _ => rfl)⟩

/-- `deque(maxlen=m)` append: the length is the old length plus one, capped
at `m`. -/
lemma dequeAppend_length (m : ℕ) (l : List BufferedFrame) (f : BufferedFrame) :
    (dequeAppend m l f).length = min (l.length + 1) m := by
  simp only [dequeAppend, List.length_drop, List.length_append, List.length_cons,
    List.length_nil]
  omega

lemma addMany_max_size (adds : List AddInput) :
    ∀ s : ScreenshotBuffer, (addMany s adds).max_size = s.max_size := by
  induction adds with
  | nil => intro s; rfl
  | cons a rest ih =>
    intro s
    show (addMany ((s.add a).1) rest).max_size = s.max_size
    exact ih ((s.add a).1)

lemma addMany_buffer_length (adds : List AddInput) :
    ∀ s : ScreenshotBuffer, adds ≠ [] →
      (addMany s adds).buffer.length = min (s.buffer.length + adds.length) s.max_size := by
  induction adds with
  | nil => intro s h; exact absurd rfl h
  | cons a rest ih =>
    intro s _
    by_cases hr : rest = []
    · subst hr
      show ((s.add a).1).buffer.length = _
      exact dequeAppend_length s.max_size s.buffer a.toFrame
    · show (addMany ((s.add a).1) rest).buffer.length = _
      rw [ih ((s.add a).1) hr]
      have h1 : ((s.add a).1).buffer.length = min (s.buffer.length + 1) s.max_size :=
        dequeAppend_length s.max_size s.buffer a.toFrame
      have h2 : ((s.add a).1).max_size = s.max_size := rfl
      rw [h1, h2, List.length_cons]
      omega

/-- Claim C8 (amended): `should_flush` is true exactly when the buffer is
non-empty AND (its length is at least the capacity, or the elapsed time
since the last flush is at least the duration threshold and the length is
at least the minimum flush size) — the non-emptiness guard is what the
original claim missed; consequently, for a positive capacity, performing at
least `capacity` adds with no flush in between leaves the buffer exactly at
capacity and makes `should_flush` (hence the boolean `add` returns) true. -/
theorem C8_amended (s : ScreenshotBuffer) (now : ℚ) :
    (s.should_flush now = true ↔
      (s.buffer ≠ [] ∧ (s.max_size ≤ s.buffer.length ∨
        (s.duration ≤ now - s.last_flush ∧ s.min_flush_size ≤ s.buffer.length)))) ∧
    (∀ adds : List AddInput, 1 ≤ s.max_size → s.max_size ≤ adds.length →
      (addMany s adds).buffer.length = s.max_size ∧
      ∀ t : ℚ, (addMany s adds).should_flush t = true) := by
  constructor
  · unfold ScreenshotBuffer.should_flush
    split_ifs with h1 h2 h3
    · constructor
      · intro hh; exact absurd hh (by simp)
      · rintro ⟨hb, _⟩; exact absurd (List.isEmpty_iff.mp h1) hb
    · have hne : s.buffer ≠ [] := fun hh => h1 (List.isEmpty_iff.mpr hh)
      constructor
      · intro _; exact ⟨hne, Or.inl h2⟩
      · intro _; rfl
    · have hne : s.buffer ≠ [] := fun hh => h1 (List.isEmpty_iff.mpr hh)
      constructor
      · intro _; exact ⟨hne, Or.inr h3⟩
      · intro _; rfl
    · constructor
      · intro hh; exact absurd hh (by simp)
      · rintro ⟨hb, hor⟩
        rcases hor with ho | ho
        · exact absurd ho h2
        · exact absurd ho h3
  · intro adds h1 h2
    have hne : adds ≠ [] := by
      intro hh
      subst hh
      simp at h2
      omega
    have hlen : (addMany s adds).buffer.length = s.max_size := by
      rw [addMany_buffer_length adds s hne]
      omega
    refine ⟨hlen, ?_⟩
    intro t
    have hbs : (addMany s adds).buffer ≠ [] := by
      intro hh
      rw [hh] at hlen
      simp at hlen
      omega
    have hA : ¬ ((addMany s adds).buffer.isEmpty = true) := by
      rw [List.isEmpty_iff]
      exact hbs
    have hB : (addMany s adds).max_size ≤ (addMany s adds).buffer.length := by
      rw [addMany_max_size, hlen]
    unfold ScreenshotBuffer.should_flush
    rw [if_neg hA, if_pos hB]

/-- Witness for C8 (amended): one add on an empty capacity-1 buffer fills it
and makes `should_flush` true. -/
theorem C8_amended_witness :
    (addMany ⟨[], 30, 1, 10, 0⟩ [⟨"p", "f", none, none, 5⟩]).buffer.length = 1 ∧
    (addMany ⟨[], 30, 1, 10, 0⟩ [⟨"p", "f", none, none, 5⟩]).should_flush 17 = true :=
  ⟨((C8_amended ⟨[], 30, 1, 10, 0⟩ 0).2 [⟨"p", "f", none, none, 5⟩]
      (by decide) (by decide)).1,
   ((C8_amended ⟨[], 30, 1, 10, 0⟩ 0).2 [⟨"p", "f", none, none, 5⟩]
      (by decide) (by decide)).2 17⟩

lemma applyOp_preserves (s : ScreenshotBuffer) (op : BufferOp)
    (h : s.buffer.length ≤ s.max_size) :
    (applyOp s op).buffer.length ≤ (applyOp s op).max_size ∧
    (applyOp s op).max_size = s.max_size := by
  cases op with
  | add a =>
    refine ⟨?_, rfl⟩
    show (dequeAppend s.max_size s.buffer a.toFrame).length ≤ s.max_size
    rw [dequeAppend_length]
    omega
  | flush t =>
    show (s.force_flush t).2.buffer.length ≤ (s.force_flush t).2.max_size ∧
      (s.force_flush t).2.max_size = s.max_size
    unfold ScreenshotBuffer.force_flush
    split
    · exact ⟨h, rfl⟩
    · refine ⟨?_, rfl⟩
      show ([] : List BufferedFrame).length ≤ s.max_size
      simp
  | clear t =>
    refine ⟨?_, rfl⟩
    show ([] : List BufferedFrame).length ≤ s.max_size
    simp

lemma applyOps_invariant (ops : List BufferOp) :
    ∀ s : ScreenshotBuffer, s.buffer.length ≤ s.max_size →
      (applyOps s ops).buffer.length ≤ (applyOps s ops).max_size ∧
      (applyOps s ops).max_size = s.max_size := by
  induction ops with
  | nil => intro s h; exact ⟨h, rfl⟩
  | cons op rest ih =>
    intro s h
    have h1 := applyOp_preserves s op h
    have h2 := ih (applyOp s op) h1.1
    exact ⟨h2.1, h2.2.trans h1.2⟩

/-- Claim C10: starting from a freshly constructed buffer, no sequence of
add/flush/clear operations ever pushes the buffer length past the capacity;
and an add performed at capacity (capacity ≥ 1) evicts the oldest frame,
keeps the length at capacity, and a subsequent flush returns exactly the
most recent `capacity` frames (the old tail followed by the new frame). -/
theorem C10_capacity (d : ℚ) (m mf : ℕ) (t0 : ℚ) (ops : List BufferOp)
    (s : ScreenshotBuffer) (a : AddInput) (tf : ℚ) :
    (applyOps (mkScreenshotBuffer d m mf t0) ops).buffer.length ≤ m ∧
    (s.buffer.length = s.max_size → 1 ≤ s.max_size →
      (s.add a).1.buffer = s.buffer.tail ++ [a.toFrame] ∧
      (s.add a).1.buffer.length = s.max_size ∧
      ((s.add a).1.force_flush tf).1 =
        (s.buffer.tail ++ [a.toFrame]).map (fun f => (f.path, f.frame_id))) := by
  constructor
  · have h := applyOps_invariant ops (mkScreenshotBuffer d m mf t0)
      (by simp [mkScreenshotBuffer])
    have h1 := h.1
    rw [h.2] at h1
    exact h1
  · intro hlen hm
    have hbuf : (s.add a).1.buffer = s.buffer.tail ++ [a.toFrame] := by
      show dequeAppend s.max_size s.buffer a.toFrame = _
      simp only [dequeAppend]
      rw [show (s.buffer ++ [a.toFrame]).length - s.max_size = 1 by
        simp only [List.length_append, List.length_cons, List.length_nil]
        omega]
      rw [List.drop_append_of_le_length (by omega)]
      rw [List.drop_one]
    refine ⟨hbuf, ?_, ?_⟩
    · rw [hbuf]
      simp only [List.length_append, List.length_tail, List.length_cons, List.length_nil]
      omega
    · have hne : ¬ ((s.add a).1.buffer.isEmpty = true) := by
        rw [List.isEmpty_iff, hbuf]
        simp
      unfold ScreenshotBuffer.force_flush
      rw [if_neg hne]
      show (s.add a).1.buffer.map _ = _
      rw [hbuf]

/-- Witness for C10: a fresh capacity-1 buffer stays within capacity under
two adds, and an add at capacity evicts the oldest frame. -/
theorem C10_capacity_witness :
    (applyOps (mkScreenshotBuffer 30 1 10 0)
      [BufferOp.add ⟨"p1", "f1", none, none, 1⟩,
       BufferOp.add ⟨"p2", "f2", none, none, 2⟩]).buffer.length ≤ 1 ∧
    ((⟨[⟨"p0", "f0", 0, none, none⟩], 30, 1, 10, 0⟩ : ScreenshotBuffer).add
        ⟨"p1", "f1", none, none, 1⟩).1.buffer =
      ([⟨"p0", "f0", 0, none, none⟩] : List BufferedFrame).tail ++
        [AddInput.toFrame ⟨"p1", "f1", none, none, 1⟩] ∧
    (((⟨[⟨"p0", "f0", 0, none, none⟩], 30, 1, 10, 0⟩ : ScreenshotBuffer).add
        ⟨"p1", "f1", none, none, 1⟩).1.force_flush 99).1 =
      (([⟨"p0", "f0", 0, none, none⟩] : List BufferedFrame).tail ++
        [AddInput.toFrame ⟨"p1", "f1", none, none, 1⟩]).map (fun f => (f.path, f.frame_id)) :=
  ⟨(C10_capacity 30 1 10 0
      [BufferOp.add ⟨"p1", "f1", none, none, 1⟩, BufferOp.add ⟨"p2", "f2", none, none, 2⟩]
      ⟨[], 30, 1, 10, 0⟩ ⟨"x", "y", none, none, 0⟩ 0).1,
   ((C10_capacity 30 1 10 0 [] ⟨[⟨"p0", "f0", 0, none, none⟩], 30, 1, 10, 0⟩
      ⟨"p1", "f1", none, none, 1⟩ 99).2 rfl (by decide)).1,
   ((C10_capacity 30 1 10 0 [] ⟨[⟨"p0", "f0", 0, none, none⟩], 30, 1, 10, 0⟩
      ⟨"p1", "f1", none, none, 1⟩ 99).2 rfl (by decide)).2.2⟩

end SecondBrain
